import Mathlib

/-!
Shallow embedding of the `modbusproxy_cpe_cb` package (files `store.py` and
`context.py`) and verification of its specification claims.

Python strings are modelled as `List Char`, Python ints as `Int`, Python lists
as `List`, Python dicts as insertion-ordered association lists, and Python
exceptions as `Except PyError`.  Remote ClearBlade collection traffic is made
explicit: reads take the list of rows the collection query returned, writes
are returned as a list of write events.
-/

deriving instance DecidableEq for Except

namespace ModbusProxy

set_option maxHeartbeats 1000000

/-- Python exception kinds that the embedded code can raise. -/
inductive PyError where
  | indexError
  | keyError
  | valueError
  | typeError
  | parameterException
deriving DecidableEq, Repr

/-- Log records emitted by the embedded code (`self.log.…` calls). -/
inductive LogMsg where
  /-- store.py line 182: "Got {} rows from ClearBlade, expecting {} registers". -/
  | warnRowCountMismatch (got : Nat) (expected : Int)
  /-- store.py lines 48/115: "Register count mismatch {} requested but {} returned". -/
  | warnRegisterCountMismatch (requested : Int) (got : Nat)
  /-- store.py line 206: "Filling {} register {} with value {}". -/
  | infoFill (registerType : List Char) (addr : Int) (fill : Int)
  /-- context.py line 96: "Invalid Modbus Slave ID {id}". -/
  | errInvalidSlaveId (id : Int)
  /-- context.py line 133: "Invalid Modbus address {num}". -/
  | errInvalidAddress (addr : Int)
  /-- context.py line 153: "Unsupported registerType {}". -/
  | errUnsupportedRegisterType (t : List Char)
  /-- context.py line 341: "Duplicate slave_id {} found in RTUs collection …". -/
  | warnDuplicateSlaveId (id : Int)
  /-- context.py line 53: "No proxy IP address specified …". -/
  | warnNoProxyIp
deriving DecidableEq, Repr

/-- Python string (sequence of code points). -/
abbrev PyStr := List Char

/-- Python `str.strip()` (whitespace at both ends). -/
def pyStrip (s : PyStr) : PyStr :=
  (s.dropWhile Char.isWhitespace).reverse.dropWhile Char.isWhitespace |>.reverse

/-- Python `str.lower()` restricted to what `Char.toLower` covers. -/
def pyLower (s : PyStr) : PyStr := s.map Char.toLower

/-- Python `str.split(sep)` for a single-character separator: keeps empty parts. -/
def pySplitAux (sep : Char) : PyStr → PyStr → List PyStr
  | [], acc => [acc.reverse]
  | c :: rest, acc =>
    if c = sep then acc.reverse :: pySplitAux sep rest []
    else pySplitAux sep rest (c :: acc)

/-- Python `str.split(sep)` for a single-character separator. -/
def pySplit (sep : Char) (s : PyStr) : List PyStr := pySplitAux sep s []

/-- Python `str.splitlines()` for texts using plain `\n` line endings:
like splitting on the newline but without a trailing empty line. -/
def pySplitLines (s : PyStr) : List PyStr :=
  if s = [] then []
  else if s.getLast? = some '\n' then (pySplit '\n' s).dropLast
  else pySplit '\n' s

/-- All-decimal-digit string to its numeric value. -/
def pyDigits (s : PyStr) : Except PyError Nat :=
  if s ≠ [] ∧ s.all Char.isDigit then
    .ok (s.foldl (fun n c => n * 10 + (c.toNat - 48)) 0)
  else .error .valueError

/-- Python `int(s)`: strips whitespace, accepts an optional sign followed by
decimal digits, raises `ValueError` otherwise. -/
def pyInt (s : PyStr) : Except PyError Int :=
  match pyStrip s with
  | '-' :: rest => (pyDigits rest).map (fun n => -(n : Int))
  | '+' :: rest => (pyDigits rest).map (fun n => (n : Int))
  | t => (pyDigits t).map (fun n => (n : Int))

/-- Python list indexing `l[i]` (negative indices count from the end;
out of range raises `IndexError`). -/
def pyGetIdx (l : List α) (i : Int) : Except PyError α :=
  let j := if i < 0 then i + l.length else i
  if 0 ≤ j then
    match l.get? j.toNat with
    | some v => .ok v
    | none => .error .indexError
  else .error .indexError

/-- Python list item assignment `l[i] = v`. -/
def pySetIdx (l : List α) (i : Int) (v : α) : Except PyError (List α) :=
  let j := if i < 0 then i + l.length else i
  if 0 ≤ j ∧ j < l.length then .ok (l.set j.toNat v)
  else .error .indexError

/-- Normalization of one slice bound as Python does it (wrap negatives, clamp). -/
def pySliceBound (len : Nat) (i : Int) : Nat :=
  if i < 0 then (max 0 (i + len)).toNat else (min i len).toNat

/-- Python slice read `l[a:b]`. -/
def pySlice (l : List α) (a b : Int) : List α :=
  let a' := pySliceBound l.length a
  let b' := pySliceBound l.length b
  (l.take b').drop a'

/-- Python slice assignment `l[a:b] = xs` (replaces the addressed slice). -/
def pySetSlice (l : List α) (a b : Int) (xs : List α) : List α :=
  let a' := pySliceBound l.length a
  let b' := max a' (pySliceBound l.length b)
  l.take a' ++ xs ++ l.drop b'

/-- Python `l.insert(i, x)` (clamps the position into `[0, len]`). -/
def pyInsert (l : List α) (i : Int) (x : α) : List α :=
  let j := if i < 0 then (max 0 (i + l.length)).toNat else (min i (l.length : Int)).toNat
  l.take j ++ [x] ++ l.drop j

/-- Python `range(a, b)` as a list of integers. -/
def intRange (a b : Int) : List Int :=
  (List.range (b - a).toNat).map (fun n : Nat => a + (n : Int))

/-- Python dict read `d[k]` on an insertion-ordered association list. -/
def dictGet [DecidableEq κ] (d : List (κ × α)) (k : κ) : Except PyError α :=
  match d.find? (fun p => decide (p.1 = k)) with
  | some p => .ok p.2
  | none => .error .keyError

/-- Python dict write `d[k] = v`: updates the existing entry in place,
otherwise appends a new one (insertion order preserved). -/
def dictSet [DecidableEq κ] (d : List (κ × α)) (k : κ) (v : α) : List (κ × α) :=
  if d.any (fun p => decide (p.1 = k)) then
    d.map (fun p => if p.1 = k then (k, v) else p)
  else d ++ [(k, v)]

/-- Key list of an association-list dict. -/
def dictKeys [DecidableEq κ] (d : List (κ × α)) : List κ := d.map Prod.fst

/-- Python dict access to one field of a collection row (`row[...]`);
missing key raises `KeyError`. -/
def getKey : Option α → Except PyError α
  | some v => .ok v
  | none => .error .keyError

/-! ## constants.py -/

/-- constants.py: `TYPE_HOLDING_REGISTER = 'hr'`. -/
def TYPE_HOLDING_REGISTER : PyStr := "hr".toList

/-- constants.py: `TYPE_INPUT_REGISTER = 'ir'`. -/
def TYPE_INPUT_REGISTER : PyStr := "ir".toList

/-- constants.py: `TYPE_DISCRETE_INPUT = 'di'`. -/
def TYPE_DISCRETE_INPUT : PyStr := "di".toList

/-- constants.py: `TYPE_COIL = 'co'`. -/
def TYPE_COIL : PyStr := "co".toList

/-- constants.py: `REGISTER_TYPES`. -/
def REGISTER_TYPES : List PyStr :=
  [TYPE_HOLDING_REGISTER, TYPE_INPUT_REGISTER, TYPE_DISCRETE_INPUT, TYPE_COIL]

/-! ## store.py — remote collection rows and the Remote Store Bridge -/

/-- One row of the ClearBlade data collection, keeping only the columns the
embedded code reads.  A field is `none` when the dict lacks that key; the
gap-fill path of `read_collection_data` builds such partial rows. -/
structure Row where
  regAddress : Option Int := none
  regData : Option Int := none
  timestamp : Option Int := none
deriving DecidableEq, Repr

/-- A collection row carrying all three columns, as genuine remote rows do. -/
def Row.wellFormed (r : Row) : Prop :=
  r.regAddress.isSome ∧ r.regData.isSome ∧ r.timestamp.isSome

instance : DecidablePred Row.wellFormed := fun r => by
  unfold Row.wellFormed; infer_instance

/-- Key extraction pass of `sorted(collection.getItems(query), key=lambda k: k[COL_REG_ADDRESS])`. -/
def keyRows : List Row → Except PyError (List (Int × Row))
  | [] => .ok []
  | r :: rest => do
    let a ← getKey r.regAddress
    let k ← keyRows rest
    pure ((a, r) :: k)

/-- store.py line 180: sort the returned rows by their register address
(Python's sort is stable; insertion sort is as well). -/
def sortRowsByAddress (items : List Row) : Except PyError (List Row) := do
  let keyed ← keyRows items
  pure ((keyed.insertionSort (fun p q => p.1 ≤ q.1)).map Prod.snd)

/-- State of the non-sparse loop of `read_collection_data` (store.py lines 200-214). -/
structure SeqReadState where
  regList : List Row
  values : List Int
  timestamps : List Int
  log : List LogMsg
deriving DecidableEq, Repr

/-- One iteration of `for addr in range(address, address + count)` in the
non-sparse branch of `read_collection_data`: checks `reg_list[addr][COL_REG_ADDRESS]`,
optionally inserts a fill row `{COL_REG_DATA: fill}` (which has no address and
no timestamp key), then appends `reg_list[addr][COL_REG_DATA]` and
`reg_list[addr][COL_DATA_TIMESTAMP]`. -/
def seqReadStep (register_type : PyStr) (fill : Option Int) (st : SeqReadState) (addr : Int) :
    Except PyError SeqReadState := do
  let row ← pyGetIdx st.regList addr
  let rowAddr ← getKey row.regAddress
  let (regList', log') ←
    if rowAddr ≠ addr then
      match fill with
      | some f =>
          pure (pyInsert st.regList addr { regData := some f },
                st.log ++ [.infoFill register_type addr f])
      | none => .error .parameterException
    else pure (st.regList, st.log)
  let row' ← pyGetIdx regList' addr
  let v ← getKey row'.regData
  let t ← getKey row'.timestamp
  pure { regList := regList', values := st.values ++ [v],
         timestamps := st.timestamps ++ [t], log := log' }

/-- The non-sparse loop of `read_collection_data`, iterated over the address range. -/
def seqReadLoop (register_type : PyStr) (fill : Option Int) :
    List Int → SeqReadState → Except PyError SeqReadState
  | [], st => .ok st
  | addr :: rest, st => do
    let st' ← seqReadStep register_type fill st addr
    seqReadLoop register_type fill rest st'

/-- store.py `read_collection_data`, non-sparse (`context.sparse == False`) branch.
The collection query itself is external; `items` is the list of rows it returned.
Returns the values list, the timestamps list, and the log. -/
def read_collection_seq (register_type : PyStr) (items : List Row) (address count : Int)
    (fill : Option Int) : Except PyError (List Int × List Int × List LogMsg) := do
  let regList ← sortRowsByAddress items
  let log₀ : List LogMsg :=
    if (regList.length : Int) ≠ count then [.warnRowCountMismatch regList.length count] else []
  let final ← seqReadLoop register_type fill (intRange address (address + count))
      { regList := regList, values := [], timestamps := [], log := log₀ }
  pure (final.values, final.timestamps, final.log)

/-- The sparse dict-building loop of `read_collection_data` (store.py lines 196-198):
`values[reg[COL_REG_ADDRESS]] = reg[COL_REG_DATA]` and likewise for timestamps. -/
def buildSparseDicts :
    List Row → List (Int × Int) × List (Int × Int) →
    Except PyError (List (Int × Int) × List (Int × Int))
  | [], acc => .ok acc
  | r :: rest, (v, t) => do
    let d ← getKey r.regData
    let a ← getKey r.regAddress
    let ts ← getKey r.timestamp
    buildSparseDicts rest (dictSet v a d, dictSet t a ts)

/-- store.py `read_collection_data`, sparse branch: returns the address→data and
address→timestamp dicts and the log. -/
def read_collection_sparse (items : List Row) (address count : Int) :
    Except PyError (List (Int × Int) × List (Int × Int) × List LogMsg) := do
  let regList ← sortRowsByAddress items
  let log₀ : List LogMsg :=
    if (regList.length : Int) ≠ count then [.warnRowCountMismatch regList.length count] else []
  let (values, timestamps) ← buildSparseDicts regList ([], [])
  pure (values, timestamps, log₀)

/-- A call to `write_collection_data` (store.py lines 218-234): the update issued
against the remote collection. -/
structure WriteEvent where
  register_type : PyStr
  address : Int
  data : Int
deriving DecidableEq, Repr

/-! ## store.py — CbModbusSequentialDataBlock -/

/-- `CbModbusSequentialDataBlock` state: `address` and `values` are set by the
pymodbus superclass constructor, `timestamps` by the subclass. -/
structure SeqBlock where
  register_type : PyStr
  address : Int
  values : List Int
  timestamps : List (Option Int)
deriving DecidableEq, Repr

/-- `CbModbusSequentialDataBlock.__init__` (store.py lines 17-34): the superclass
stores `address` and `values`; the register type must be one of `REGISTER_TYPES`
(else `ParameterException`); `timestamps` gets one `None` per index in
`range(0, len(self.values)-1)`. -/
def SeqBlock.init (register_type : PyStr) (address : Int) (values : List Int) :
    Except PyError SeqBlock :=
  if register_type ∈ REGISTER_TYPES then
    .ok { register_type := register_type, address := address, values := values,
          timestamps := List.replicate (values.length - 1) none }
  else .error .parameterException

/-- The merge loop of `CbModbusSequentialDataBlock.getValues` (store.py lines 51-55):
`self.values[i] = values[j]; self.timestamps[i] = timestamps[i]` for
`i in range(address, address + count)`. -/
def seqMergeLoop (values timestamps : List Int) :
    List Int → Nat → SeqBlock → Except PyError SeqBlock
  | [], _, bk => .ok bk
  | i :: rest, j, bk => do
    let v ← pyGetIdx values (j : Int)
    let newVals ← pySetIdx bk.values i v
    let t ← pyGetIdx timestamps i
    let newTs ← pySetIdx bk.timestamps i (some t)
    seqMergeLoop values timestamps rest (j + 1)
      { bk with values := newVals, timestamps := newTs }

/-- `CbModbusSequentialDataBlock.getValues` (store.py lines 36-56).  `items` is
what the remote collection query returned.  Yields the updated block, the list
returned to the caller, and the log. -/
def SeqBlock.getValues (b : SeqBlock) (items : List Row) (address : Int) (count : Int) :
    Except PyError (SeqBlock × List Int × List LogMsg) := do
  let start := address - b.address
  let (values, timestamps, log) ← read_collection_seq b.register_type items address count (some 0)
  let (count', log') :=
    if (values.length : Int) ≠ count then
      ((values.length : Int), log ++ [.warnRegisterCountMismatch count values.length])
    else (count, log)
  let final ← seqMergeLoop values timestamps (intRange address (address + count')) 0 b
  pure (final, pySlice final.values start (start + count'), log')

/-- Argument shape of `setValues`: a single int or a list of ints. -/
inductive PyValues where
  | one (v : Int)
  | list (l : List Int)
deriving DecidableEq, Repr

/-- The `isinstance(values, list)` normalization at the top of `setValues`. -/
def PyValues.toList : PyValues → List Int
  | .one v => [v]
  | .list l => l

/-- The write loop of `CbModbusSequentialDataBlock.setValues` (store.py lines 69-70):
`for i in range(address, len(values)-1): write_collection_data(..., address=address+i, data=values[i])`. -/
def seqWriteLoop (register_type : PyStr) (address : Int) (vals : List Int) :
    List Int → Except PyError (List WriteEvent)
  | [] => .ok []
  | i :: rest => do
    let d ← pyGetIdx vals i
    let ws ← seqWriteLoop register_type address vals rest
    pure ({ register_type := register_type, address := address + i, data := d } :: ws)

/-- `CbModbusSequentialDataBlock.setValues` (store.py lines 58-70): overwrites the
cache slice, then issues the remote writes of the (mis-ranged) loop. -/
def SeqBlock.setValues (b : SeqBlock) (address : Int) (values : PyValues) :
    Except PyError (SeqBlock × List WriteEvent) := do
  let vals := values.toList
  let start := address - b.address
  let newValues := pySetSlice b.values start (start + vals.length) vals
  let writes ← seqWriteLoop b.register_type address vals
    (intRange address ((vals.length : Int) - 1))
  pure ({ b with values := newValues }, writes)

/-- `CbModbusSequentialDataBlock.get_timestamps` (store.py lines 72-82). -/
def SeqBlock.get_timestamps (b : SeqBlock) (address : Int) (count : Int) : List (Option Int) :=
  pySlice b.timestamps (address - b.address) (address - b.address + count)

/-! ## store.py — CbModbusSparseDataBlock -/

/-- `CbModbusSparseDataBlock` state.  Keys are the Python dict keys of
`self.values`; `none` stands for the Python value `None` (which the address-space
builder can put there), `some n` for an int key. -/
structure SparseBlock where
  register_type : PyStr
  values : List (Option Int × Int)
  timestamps : List (Option Int × Option Int)
deriving DecidableEq, Repr

/-- `CbModbusSparseDataBlock.__init__` (store.py lines 86-103): the pymodbus
superclass keeps a dict argument as `self.values`; the register type must be
valid; `timestamps` maps every values key to `None`. -/
def SparseBlock.init (register_type : PyStr) (values : List (Option Int × Int)) :
    Except PyError SparseBlock :=
  if register_type ∈ REGISTER_TYPES then
    .ok { register_type := register_type, values := values,
          timestamps := values.map (fun p => (p.1, none)) }
  else .error .parameterException

/-- Inner loop of the sparse `getValues` merge (store.py lines 117-120):
`for addr in self.values: if key == addr: self.values[addr] = values[key]; …`. -/
def sparseMergeInner (remoteV remoteT : List (Int × Int)) (key : Int) :
    List (Option Int) → SparseBlock → Except PyError SparseBlock
  | [], bk => .ok bk
  | addr :: rest, bk =>
    if some key = addr then do
      let v ← dictGet remoteV key
      let t ← dictGet remoteT key
      sparseMergeInner remoteV remoteT key rest
        { bk with values := dictSet bk.values addr v,
                  timestamps := dictSet bk.timestamps addr (some t) }
    else sparseMergeInner remoteV remoteT key rest bk

/-- Outer loop of the sparse `getValues` merge (store.py line 116):
`for key in values: …`. -/
def sparseMergeOuter (remoteV remoteT : List (Int × Int)) :
    List Int → SparseBlock → Except PyError SparseBlock
  | [], bk => .ok bk
  | key :: rest, bk => do
    let bk' ← sparseMergeInner remoteV remoteT key (bk.values.map Prod.fst) bk
    sparseMergeOuter remoteV remoteT rest bk'

/-- The list comprehension `[self.values[i] for i in range(address, address + count)]`
(store.py line 123): a direct dict lookup at every address in the range. -/
def sparseComp (d : List (Option Int × Int)) : List Int → Except PyError (List Int)
  | [] => .ok []
  | i :: rest => do
    let v ← dictGet d (some i)
    let vs ← sparseComp d rest
    pure (v :: vs)

/-- `CbModbusSparseDataBlock.getValues` (store.py lines 105-123). -/
def SparseBlock.getValues (b : SparseBlock) (items : List Row) (address : Int) (count : Int) :
    Except PyError (SparseBlock × List Int × List LogMsg) := do
  let (values, timestamps, log₀) ← read_collection_sparse items address count
  let log :=
    if (values.length : Int) ≠ count then
      log₀ ++ [.warnRegisterCountMismatch count values.length]
    else log₀
  let merged ← sparseMergeOuter values timestamps (values.map Prod.fst) b
  let result ← sparseComp merged.values (intRange address (address + count))
  pure (merged, result, log)

/-- `CbModbusSparseDataBlock.get_timestamps` (store.py lines 144-153): a dict
lookup per requested address. -/
def sparseTsComp (d : List (Option Int × Option Int)) : List Int → Except PyError (List (Option Int))
  | [] => .ok []
  | i :: rest => do
    let v ← dictGet d (some i)
    let vs ← sparseTsComp d rest
    pure (v :: vs)

/-- `CbModbusSparseDataBlock.get_timestamps` over a requested range. -/
def SparseBlock.get_timestamps (b : SparseBlock) (address : Int) (count : Int) :
    Except PyError (List (Option Int)) :=
  sparseTsComp b.timestamps (intRange address (address + count))

/-! ## context.py — template parser constants (constants.py lines 37-52) -/

/-- constants.py: `TEMPLATE_PARSER_DESC = '/*DEVICE;'`. -/
def TEMPLATE_DESC : PyStr := "/*DEVICE;".toList

/-- constants.py: `TEMPLATE_PARSER_NETWORK = 'deviceId'`. -/
def TEMPLATE_NETWORK : PyStr := "deviceId".toList

/-- constants.py: `TEMPLATE_PARSER_REGISTER_DEF = 'paramId'` (also `TEMPLATE_PARSER_REG_UID`). -/
def TEMPLATE_REGISTER_DEF : PyStr := "paramId".toList

/-- constants.py: `TEMPLATE_PARSER_REG_ADDRESS = 'address'`. -/
def TEMPLATE_REG_ADDRESS : PyStr := "address".toList

/-- constants.py: `TEMPLATE_PARSER_SLAVE_ID = 'networkId'`. -/
def TEMPLATE_SLAVE_ID : PyStr := "networkId".toList

/-- constants.py: `TEMPLATE_PARSER_NOT_ZERO_MODE = 'plcBaseAddress'`. -/
def TEMPLATE_NOT_ZERO_MODE : PyStr := "plcBaseAddress".toList

/-- constants.py: `TEMPLATE_PARSER_TYPE_HOLDING_REGISTER = 'holding'`. -/
def TEMPLATE_TYPE_HOLDING : PyStr := "holding".toList

/-- constants.py: `TEMPLATE_PARSER_TYPE_INPUT_REGISTER = 'analog'`. -/
def TEMPLATE_TYPE_ANALOG : PyStr := "analog".toList

/-- constants.py: `TEMPLATE_PARSER_TYPE_DISCRETE_INPUT = 'input'`. -/
def TEMPLATE_TYPE_INPUT : PyStr := "input".toList

/-- constants.py: `TEMPLATE_PARSER_TYPE_COIL = 'coil'`. -/
def TEMPLATE_TYPE_COIL : PyStr := "coil".toList

/-! ## context.py — ClearBladeModbusProxySlaveContext -/

/-- `_RegisterBlockConfig` (context.py lines 225-239): per-`paramId` parse
metadata; unset fields are Python `None`. -/
structure RegisterBlockConfig where
  param_id : Option Int := none
  address : Option Int := none
  register_type : Option PyStr := none
  block_size : Int := 1
deriving DecidableEq, Repr

/-- `ModbusDeviceIdentification` fields the parser assigns (external pymodbus
class; modelled as the six stripped strings). -/
structure Identity where
  VendorName : PyStr := []
  ProductCode : PyStr := []
  VendorUrl : PyStr := []
  ProductName : PyStr := []
  ModelName : PyStr := []
  MajorMinorRevision : PyStr := []
deriving DecidableEq, Repr

/-- Mutable state of `ClearBladeModbusProxySlaveContext` while `_parse_config`
runs: identity, `sparse`, `slave_id`, `zero_mode`, the in-progress descriptor
list `registers`, and the log. -/
structure SlaveState where
  identity : Identity
  sparse : Bool
  slave_id : Int
  zero_mode : Bool
  registers : List RegisterBlockConfig
  log : List LogMsg
deriving DecidableEq, Repr

/-- State of the slave context before `_parse_config` (context.py lines 54-63):
`zero_mode = True`, `sparse = False`, no registers. -/
def initSlaveState (slave_id : Int) : SlaveState :=
  { identity := {}, sparse := false, slave_id := slave_id, zero_mode := true,
    registers := [], log := [] }

/-- Effect of a parsed `sparse=` value on the slave state (`bool(int(...))`,
context.py line 87). -/
def applySparse (st : SlaveState) (n : Int) : SlaveState :=
  { st with sparse := n ≠ 0 }

/-- One `id_tag` of a `/*DEVICE;` line (context.py lines 73-87): the identity
prefixes are matched in order, then the case-insensitive `sparse` prefix whose
value goes through `bool(int(...))`. -/
def processDeviceTag (st : SlaveState) (tag : PyStr) : Except PyError SlaveState :=
  if "VendorName".toList.isPrefixOf tag then
    .ok { st with identity.VendorName := pyStrip (tag.drop 11) }
  else if "ProductCode".toList.isPrefixOf tag then
    .ok { st with identity.ProductCode := pyStrip (tag.drop 12) }
  else if "VendorUrl".toList.isPrefixOf tag then
    .ok { st with identity.VendorUrl := pyStrip (tag.drop 10) }
  else if "ProductName".toList.isPrefixOf tag then
    .ok { st with identity.ProductName := pyStrip (tag.drop 12) }
  else if "ModelName".toList.isPrefixOf tag then
    .ok { st with identity.ModelName := pyStrip (tag.drop 10) }
  else if "MajorMinorRevision".toList.isPrefixOf tag then
    .ok { st with identity.MajorMinorRevision := pyStrip (tag.drop 19) }
  else if pyLower (tag.take 6) = "sparse".toList then
    (pyInt (pyStrip (tag.drop 7))).map (applySparse st)
  else .ok st

/-- Effect of a parsed `networkId=` value (context.py lines 91-96): assigned only
when inside `range(1, 255)`, otherwise logged as an error. -/
def applyNetworkId (st : SlaveState) (net_id : Int) : SlaveState :=
  if 1 ≤ net_id ∧ net_id < 255 then { st with slave_id := net_id }
  else { st with log := st.log ++ [.errInvalidSlaveId net_id] }

/-- Effect of a parsed `plcBaseAddress=` value (context.py lines 97-99):
`zero_mode` is `False` exactly when the value is 1. -/
def applyPlc (st : SlaveState) (plc : Int) : SlaveState :=
  { st with zero_mode := plc ≠ 1 }

/-- One tag of a `deviceId` line (context.py lines 90-99). -/
def processNetTag (st : SlaveState) (tag : PyStr) : Except PyError SlaveState :=
  if TEMPLATE_SLAVE_ID.isPrefixOf tag then
    (pyInt (pyStrip (tag.drop 10))).map (applyNetworkId st)
  else if TEMPLATE_NOT_ZERO_MODE.isPrefixOf tag then
    (pyInt (pyStrip (tag.drop 15))).map (applyPlc st)
  else .ok st

/-- Per-line state of a register-definition line (`reg_exists`, `this_reg`,
context.py lines 108-109). -/
structure RegLineState where
  st : SlaveState
  reg_exists : Bool
  this_reg : Option Int
deriving DecidableEq, Repr

/-- Effect of a parsed `paramId=` value (context.py lines 111-119): a fresh
descriptor is appended only when `reg_exists` is still false and no existing
descriptor carries the id; `reg_exists` ends up true and `this_reg` is set. -/
def applyRegParamId (ls : RegLineState) (pid : Int) : RegLineState :=
  { st := { ls.st with registers :=
      if ls.reg_exists || ls.st.registers.any (fun r => decide (r.param_id = some pid)) then
        ls.st.registers
      else ls.st.registers ++ [{ param_id := some pid }] },
    reg_exists := true, this_reg := some pid }

/-- Effect of a zero-mode-shifted `address=` value (context.py lines 120-133):
inside `[0, 99999]` it is assigned to every descriptor matching `this_reg` (a
descriptor with only the address is appended when `reg_exists` is false);
outside the range it is logged and dropped. -/
def applyRegAddress (ls : RegLineState) (addr : Int) : RegLineState :=
  if 0 ≤ addr ∧ addr ≤ 99999 then
    { st := { ls.st with registers :=
        (if ls.reg_exists then
          ls.st.registers.map (fun r =>
            if r.param_id = ls.this_reg then { r with address := some addr } else r)
        else
          ls.st.registers.map (fun r =>
            if r.param_id = ls.this_reg then { r with address := some addr } else r) ++
            [{ address := some addr }]) },
      reg_exists := true, this_reg := ls.this_reg }
  else { ls with st := { ls.st with log := ls.st.log ++ [.errInvalidAddress addr] } }

/-- Update of every descriptor matching `this_reg` with a register type. -/
def assignRegType (ls : RegLineState) (t : PyStr) : RegLineState :=
  { ls with st := { ls.st with registers := ls.st.registers.map (fun r =>
      if r.param_id = ls.this_reg then { r with register_type := some t } else r) } }

/-- Effect of a `registerType=` token (context.py lines 134-153): the four
recognized tokens map to the internal type constants; anything else is logged
as an error and assigns nothing. -/
def applyRegType (ls : RegLineState) (reg_type : PyStr) : RegLineState :=
  if reg_type = TEMPLATE_TYPE_ANALOG then assignRegType ls TYPE_INPUT_REGISTER
  else if reg_type = TEMPLATE_TYPE_HOLDING then assignRegType ls TYPE_HOLDING_REGISTER
  else if reg_type = TEMPLATE_TYPE_INPUT then assignRegType ls TYPE_DISCRETE_INPUT
  else if reg_type = TEMPLATE_TYPE_COIL then assignRegType ls TYPE_COIL
  else { ls with st := { ls.st with log :=
    ls.st.log ++ [.errUnsupportedRegisterType reg_type] } }

/-- One tag of a `paramId` register-definition line (context.py lines 110-153). -/
def processRegTag (ls : RegLineState) (tag : PyStr) : Except PyError RegLineState :=
  if TEMPLATE_REGISTER_DEF.isPrefixOf tag then
    (pyInt (pyStrip (tag.drop 8))).map (applyRegParamId ls)
  else if TEMPLATE_REG_ADDRESS.isPrefixOf tag then
    (pyInt (pyStrip (tag.drop 8))).map (fun addr₀ =>
      applyRegAddress ls (if ls.st.zero_mode then addr₀ else addr₀ + 1))
  else if "registerType".toList.isPrefixOf tag then
    .ok (applyRegType ls (pyStrip (tag.drop 13)))
  else .ok ls

/-- Fold of a tag processor over the `;`-separated fields of one line. -/
def processTags (f : σ → PyStr → Except PyError σ) : List PyStr → σ → Except PyError σ
  | [], s => .ok s
  | t :: rest, s => do
    let s' ← f s t
    processTags f rest s'

/-- Dispatch of one template line (context.py lines 70-153): device-description
lines, network-identity lines, register-definition lines; all others ignored. -/
def processLine (st : SlaveState) (line : PyStr) : Except PyError SlaveState :=
  if TEMPLATE_DESC.isPrefixOf line then
    processTags processDeviceTag (pySplit ';' line) st
  else if TEMPLATE_NETWORK.isPrefixOf line then
    processTags processNetTag (pySplit ';' line) st
  else if TEMPLATE_REGISTER_DEF.isPrefixOf line then
    (processTags processRegTag (pySplit ';' line)
      { st := st, reg_exists := false, this_reg := none }).map RegLineState.st
  else .ok st

/-- The eight per-type collections built in context.py lines 154-182.  Sparse
dict keys are the raw `reg.address` values (possibly Python `None`); sequential
lists likewise collect raw addresses. -/
structure ParsedBlocks where
  hrSparse : List (Option Int × Int) := []
  irSparse : List (Option Int × Int) := []
  diSparse : List (Option Int × Int) := []
  coSparse : List (Option Int × Int) := []
  hrSeq : List (Option Int) := []
  irSeq : List (Option Int) := []
  diSeq : List (Option Int) := []
  coSeq : List (Option Int) := []
deriving DecidableEq, Repr

/-- The partition loop `for reg in registers:` (context.py lines 162-182).  Note
the final `else`: every descriptor that is not holding/input/discrete —
including those whose register type was never assigned — lands in the coil
collection. -/
def partitionRegisters (sparse : Bool) (regs : List RegisterBlockConfig) : ParsedBlocks :=
  regs.foldl (fun pb reg =>
    if reg.register_type = some TYPE_HOLDING_REGISTER then
      if sparse then { pb with hrSparse := dictSet pb.hrSparse reg.address 0 }
      else { pb with hrSeq := pb.hrSeq ++ [reg.address] }
    else if reg.register_type = some TYPE_INPUT_REGISTER then
      if sparse then { pb with irSparse := dictSet pb.irSparse reg.address 0 }
      else { pb with irSeq := pb.irSeq ++ [reg.address] }
    else if reg.register_type = some TYPE_DISCRETE_INPUT then
      if sparse then { pb with diSparse := dictSet pb.diSparse reg.address 0 }
      else { pb with diSeq := pb.diSeq ++ [reg.address] }
    else
      if sparse then { pb with coSparse := dictSet pb.coSparse reg.address 0 }
      else { pb with coSeq := pb.coSeq ++ [reg.address] }) {}

/-- `_setup_sequential_block` (context.py lines 208-223): empty address lists
(or an invalid type) yield no block; otherwise the list is sorted and the block
spans `[block[0], block[len(block)-1])`, zero-initialized.  Sorting a Python
list that contains `None` alongside ints — or calling `range` on `None` —
raises `TypeError`, collapsed here into one check. -/
def setup_sequential_block (block : List (Option Int)) (register_type : PyStr) :
    Except PyError (Option SeqBlock) :=
  if register_type ∈ REGISTER_TYPES ∧ 0 < block.length then
    if block.any (fun a => a.isNone) then .error .typeError
    else
      let sorted := (block.filterMap id).insertionSort (fun a b => a ≤ b)
      do
        let b0 ← pyGetIdx sorted 0
        let b1 ← pyGetIdx sorted ((sorted.length : Int) - 1)
        let b ← SeqBlock.init register_type b0 (List.replicate (b1 - b0).toNat 0)
        pure (some b)
  else .ok none

/-- `_setup_sparse_block` (context.py lines 194-206): empty dicts (or an invalid
type) yield no block, otherwise a `CbModbusSparseDataBlock` is built on the dict. -/
def setup_sparse_block (block : List (Option Int × Int)) (register_type : PyStr) :
    Except PyError (Option SparseBlock) :=
  if register_type ∈ REGISTER_TYPES ∧ 0 < block.length then
    (SparseBlock.init register_type block).map some
  else .ok none

/-- One entry of `self.store`. -/
inductive StoreEntry where
  | seq (b : SeqBlock)
  | sparse (b : SparseBlock)
deriving DecidableEq, Repr

/-- `self.store` after `_parse_config`: the four per-type optional blocks
(`'h'`, `'i'`, `'d'`, `'c'`). -/
structure Store where
  h : Option StoreEntry := none
  i : Option StoreEntry := none
  d : Option StoreEntry := none
  c : Option StoreEntry := none
deriving DecidableEq, Repr

/-- Block construction at the end of `_parse_config` (context.py lines 183-192). -/
def buildStore (st : SlaveState) : Except PyError Store := do
  let pb := partitionRegisters st.sparse st.registers
  if st.sparse then do
    let h ← setup_sparse_block pb.hrSparse TYPE_HOLDING_REGISTER
    let i ← setup_sparse_block pb.irSparse TYPE_INPUT_REGISTER
    let d ← setup_sparse_block pb.diSparse TYPE_DISCRETE_INPUT
    let c ← setup_sparse_block pb.coSparse TYPE_COIL
    pure { h := h.map .sparse, i := i.map .sparse, d := d.map .sparse, c := c.map .sparse }
  else do
    let h ← setup_sequential_block pb.hrSeq TYPE_HOLDING_REGISTER
    let i ← setup_sequential_block pb.irSeq TYPE_INPUT_REGISTER
    let d ← setup_sequential_block pb.diSeq TYPE_DISCRETE_INPUT
    let c ← setup_sequential_block pb.coSeq TYPE_COIL
    pure { h := h.map .seq, i := i.map .seq, d := d.map .seq, c := c.map .seq }

/-- `_parse_config` (context.py lines 66-192): line loop, then block setup. -/
def parse_config (st : SlaveState) (config_file : PyStr) :
    Except PyError (SlaveState × Store) := do
  let st' ← processTags processLine (pySplitLines config_file) st
  let store ← buildStore st'
  pure (st', store)

/-! ## context.py — ClearBladeModbusProxyServerContext -/

/-- One row of the RTU-configuration collection, keeping the columns the server
context reads (`ip_address`, `ip_port`, `slave_id`, `config_file`). -/
structure ConfigRow where
  ip_address : PyStr
  ip_port : Int
  slave_id : Int
  config_file : PyStr
deriving DecidableEq, Repr

/-- A fully constructed slave context. -/
structure SlaveCtx where
  ip_proxy : PyStr
  ip_port : Int
  state : SlaveState
  store : Store
deriving DecidableEq, Repr

/-- `ClearBladeModbusProxySlaveContext.__init__` (context.py lines 35-64):
defaults `zero_mode = True`, `sparse = False`, warns on an empty proxy IP, then
runs `_parse_config` on the row's template text. -/
def slaveContextInit (row : ConfigRow) : Except PyError SlaveCtx := do
  let log₀ : List LogMsg := if row.ip_address = [] then [.warnNoProxyIp] else []
  let st₀ : SlaveState := { initSlaveState row.slave_id with log := log₀ }
  let (st, store) ← parse_config st₀ row.config_file
  pure { ip_proxy := row.ip_address, ip_port := row.ip_port, state := st, store := store }

/-- The row loop of `_initialize_slaves` (context.py lines 335-342), with its
accumulated `slaves` id list, slave mapping, and server log made explicit. -/
def initSlavesAux (slaves : List Int) (m : List (Int × SlaveCtx)) (log : List LogMsg) :
    List ConfigRow → Except PyError (List Int × List (Int × SlaveCtx) × List LogMsg)
  | [] => .ok (slaves, m, log)
  | row :: rest =>
    if row.slave_id ∈ slaves then
      initSlavesAux slaves m (log ++ [.warnDuplicateSlaveId row.slave_id]) rest
    else
      match slaveContextInit row with
      | .error e => .error e
      | .ok ctx => initSlavesAux (slaves ++ [row.slave_id]) (m ++ [(row.slave_id, ctx)]) log rest

/-- `ClearBladeModbusProxyServerContext._initialize_slaves` (context.py lines
322-342): the configuration query is external; `rows` is what it returned.
Returns the unit-id → slave-context mapping and the server log. -/
def initialize_slaves (rows : List ConfigRow) :
    Except PyError (List (Int × SlaveCtx) × List LogMsg) :=
  (initSlavesAux [] [] [] rows).map (fun acc => (acc.2.1, acc.2.2))

/-- Association lookup in the slave mapping (`ModbusServerContext` slave dict). -/
def assocGet? [DecidableEq κ] (m : List (κ × α)) (k : κ) : Option α :=
  (m.find? (fun p => decide (p.1 = k))).map Prod.snd

/-! ## Concrete fixtures used by individual claims -/

/-- Template with a non-numeric `paramId=` value. -/
def badFieldTemplate : PyStr := "paramId=x".toList

/-- Template whose violations are all of the logged kinds — an out-of-range
unit id, an out-of-range register address, and an unsupported register type —
and whose last line repairs the descriptor's address with a valid value. -/
def loggedViolationsTemplate : PyStr :=
  ("deviceId;networkId=300\n" ++
   "paramId=1;address=999999;registerType=bogus\n" ++
   "paramId=1;address=42;registerType=holding").toList

/-- Template whose only violation is an out-of-range address that no later line
repairs: the descriptor keeps `address = None`, which non-sparse block setup
cannot sort or range over. -/
def unrepairedAddressTemplate : PyStr :=
  "paramId=1;address=999999;registerType=holding".toList

/-- Template with a single descriptor whose register type token is unsupported. -/
def bogusTypeTemplate : PyStr := "paramId=1;address=3;registerType=bogus".toList

/-- Template with two register-definition lines sharing `paramId=12`. -/
def mergeTemplate : PyStr :=
  ("paramId=12;address=42;registerType=holding\n" ++ "paramId=12;registerType=coil").toList

/-- Slave state resulting from parsing `mergeTemplate`. -/
def mergeState : SlaveState :=
  { identity := {}, sparse := false, slave_id := 1, zero_mode := true,
    registers := [{ param_id := some 12, address := some 42, register_type := some TYPE_COIL }],
    log := [] }

/-- Store resulting from parsing `mergeTemplate`. -/
def mergeStore : Store :=
  { c := some (.seq { register_type := TYPE_COIL, address := 42, values := [], timestamps := [] }) }

/-- Deduplication invariant of the descriptor list: no integer `paramId` is
carried by more than one descriptor. -/
def regsDedup (regs : List RegisterBlockConfig) : Prop :=
  ∀ p : Int, regs.countP (fun r => decide (r.param_id = some p)) ≤ 1

/-- Two configuration rows sharing unit id 3. -/
def dupRows : List ConfigRow :=
  [{ ip_address := "10.0.0.1".toList, ip_port := 502, slave_id := 3, config_file := [] },
   { ip_address := "10.0.0.2".toList, ip_port := 502, slave_id := 3, config_file := [] }]

/-- Slave context constructed from the first of `dupRows`. -/
def dupRowsCtx : SlaveCtx :=
  { ip_proxy := "10.0.0.1".toList, ip_port := 502, state := initSlaveState 3, store := {} }

end ModbusProxy

namespace ModbusProxy

/-! ## Generic reduction lemmas -/

/-- Bind of a successful `Except` computation. -/
theorem except_bind_ok (a : α) (f : α → Except ε β) :
    (Except.ok a >>= f : Except ε β) = f a := rfl

/-- Bind of a failed `Except` computation. -/
theorem except_bind_err (e : ε) (f : α → Except ε β) :
    (Except.error e >>= f : Except ε β) = Except.error e := rfl

/-! ## Claim theorems -/

/-- C1 (code bug).  The claim: for a Sequential block, `getValues(address, count)`
within the block's domain merges the bridge result into the cache and returns
exactly `count` values, falling back to cached values on a short read.  The code
instead indexes the bridge row list and the returned timestamp list with the
absolute register address (`reg_list[addr]`, `timestamps[i]` for
`i in range(address, …)`), so any in-domain read starting above the base — here
a block over `[0, 2)` asked for address 1, count 1, with the remote returning
exactly the requested row — raises `IndexError` instead of returning one value. -/
theorem seq_getValues_in_domain_raises :
    SeqBlock.getValues
      { register_type := TYPE_HOLDING_REGISTER, address := 0, values := [1, 2],
        timestamps := [none] }
      [{ regAddress := some 1, regData := some 7, timestamp := some 5 }] 1 1 =
      .error .indexError := by decide

/-- C2 (code bug).  The claim: a Sequential bridge read with gap-filling enabled
fills each missing address with the fill value (default 0) and returns `count`
values, logging a mismatch warning; with `fill=None` it fails with a
data-integrity error.  The second half is accurate, but the fill path inserts a
row carrying only the data column (`{COL_REG_DATA: fill}`), so the subsequent
`reg_list[addr][COL_DATA_TIMESTAMP]` lookup raises `KeyError`: the read of
`[0, 2)` with only the address-1 row present crashes instead of returning
`[0, 7]`. -/
theorem gap_fill_read_raises_keyerror :
    read_collection_seq TYPE_HOLDING_REGISTER
      [{ regAddress := some 1, regData := some 7, timestamp := some 5 }] 0 2 (some 0) =
      .error .keyError ∧
    read_collection_seq TYPE_HOLDING_REGISTER
      [{ regAddress := some 1, regData := some 7, timestamp := some 5 }] 0 2 none =
      .error .parameterException := by decide

/-- C3 (code bug).  The claim: Sequential `setValues(address, values)` writes the
cache slice and issues one remote write per written address, `values[i]` going
to `address + i`.  The cache slice is written, but the write loop is
`for i in range(address, len(values)-1)`, which for a base-0 block written at
address 2 with two values is `range(2, 1)` — empty — so no remote write at all
is issued where the claim requires writes of 10 to address 2 and 20 to
address 3. -/
theorem seq_setValues_issues_no_writes :
    SeqBlock.setValues
      { register_type := TYPE_HOLDING_REGISTER, address := 0, values := [1, 2, 3, 4],
        timestamps := [none, none, none] } 2 (.list [10, 20]) =
      .ok ({ register_type := TYPE_HOLDING_REGISTER, address := 0, values := [1, 2, 10, 20],
             timestamps := [none, none, none] }, []) := by decide

/-- C4 (counterexample).  The claim says template parsing never aborts on a
malformed field value; but a non-numeric value after `paramId=` reaches
Python's `int()` with no enclosing handler, raising `ValueError` — the parse
aborts instead of returning a result. -/
theorem parse_aborts_on_malformed_field :
    parse_config (initSlaveState 1) badFieldTemplate = .error .valueError := by decide

/-- C4 (amended).  Each violation the parser itself checks for — an invalid
unit id, an out-of-range register address, an unsupported register type — is
logged, that assignment is dropped, and line processing continues past it; but
the parser does not always return a result.  A non-numeric value after
`paramId=`, `address=`, `networkId=`, `plcBaseAddress=` or `sparse=` raises an
uncaught `ValueError` at the violating field (the counterexample), and a
descriptor left without a valid address — for example after an out-of-range
address that no later line repairs — makes the non-sparse block setup at the
end of `_parse_config` raise an uncaught `TypeError` (the `None` address lands
in a sequential address list, which Python can neither sort with ints nor pass
to `range`).  First conjunct: on `loggedViolationsTemplate` all three
violations are logged, the unit id stays 1, the dropped address is superseded
by the valid 42, and the parse completes.  Second conjunct: on
`unrepairedAddressTemplate`, whose only violation is the same out-of-range
address without the repair line, the parse aborts with `TypeError`. -/
theorem parse_logged_violations_not_abort_free :
    parse_config (initSlaveState 1) loggedViolationsTemplate =
      .ok ({ identity := {}, sparse := false, slave_id := 1, zero_mode := true,
             registers := [{ param_id := some 1, address := some 42,
                             register_type := some TYPE_HOLDING_REGISTER }],
             log := [.errInvalidSlaveId 300, .errInvalidAddress 999999,
                     .errUnsupportedRegisterType "bogus".toList] },
           { h := some (.seq { register_type := TYPE_HOLDING_REGISTER, address := 42,
                               values := [], timestamps := [] }) }) ∧
    parse_config (initSlaveState 1) unrepairedAddressTemplate = .error .typeError := by decide

/-- C6 (code bug).  The claim: a Sequential block's timestamps array is parallel
to its values array (same length, all entries null at construction) so that
`getTimestamps` returns one entry per requested in-domain address.  The
constructor loops over `range(0, len(self.values)-1)`, producing one entry too
few: a block built over two values has a single timestamp slot, and
`get_timestamps(base, 2)` returns one entry, not two. -/
theorem seq_timestamps_one_short :
    SeqBlock.init TYPE_HOLDING_REGISTER 0 [1, 2] =
      .ok { register_type := TYPE_HOLDING_REGISTER, address := 0, values := [1, 2],
            timestamps := [none] } ∧
    SeqBlock.get_timestamps
      { register_type := TYPE_HOLDING_REGISTER, address := 0, values := [1, 2],
        timestamps := [none] } 0 2 = [none] := by decide

/-- C7 (counterexample).  The claim says a descriptor whose register type is
never validly assigned contributes to no register block; but parsing a template
whose only descriptor has an unsupported type yields a coil block (the claim
would require the coil store entry to stay absent). -/
theorem bogus_type_descriptor_not_ignored :
    ¬ ((parse_config (initSlaveState 1) bogusTypeTemplate).map (fun r => r.2.c) =
        .ok none) := by decide

lemma except_map_ok {f : α → β} {x : Except ε α} {b : β}
    (h : x.map f = .ok b) : ∃ a, x = .ok a ∧ b = f a := by
  cases x with
  | error e => simp [Except.map] at h
  | ok a => exact ⟨a, rfl, by simpa [Except.map] using h.symm⟩

lemma processDeviceTag_registers {st st' : SlaveState} {tag : PyStr}
    (h : processDeviceTag st tag = .ok st') : st'.registers = st.registers := by
  unfold processDeviceTag at h
  repeat' split at h
  any_goals (cases h; rfl)
  obtain ⟨n, hn, rfl⟩ := except_map_ok h
  rfl

lemma processNetTag_registers {st st' : SlaveState} {tag : PyStr}
    (h : processNetTag st tag = .ok st') : st'.registers = st.registers := by
  unfold processNetTag at h
  repeat' split at h
  any_goals (cases h; rfl)
  · obtain ⟨n, hn, rfl⟩ := except_map_ok h
    unfold applyNetworkId
    split <;> rfl
  · obtain ⟨n, hn, rfl⟩ := except_map_ok h
    rfl

lemma countP_param_map {regs : List RegisterBlockConfig} {g : RegisterBlockConfig → RegisterBlockConfig}
    (hg : ∀ r, (g r).param_id = r.param_id) (p : Int) :
    (regs.map g).countP (fun r => decide (r.param_id = some p)) =
      regs.countP (fun r => decide (r.param_id = some p)) := by
  rw [List.countP_map]
  apply List.countP_congr
  intro r _
  simp [Function.comp, hg r]

lemma regsDedup_map {regs : List RegisterBlockConfig} {g : RegisterBlockConfig → RegisterBlockConfig}
    (hg : ∀ r, (g r).param_id = r.param_id) (hd : regsDedup regs) :
    regsDedup (regs.map g) := by
  intro p
  rw [countP_param_map hg]
  exact hd p

lemma regsDedup_append_none {regs : List RegisterBlockConfig} {r₀ : RegisterBlockConfig}
    (hr : r₀.param_id = none) (hd : regsDedup regs) : regsDedup (regs ++ [r₀]) := by
  intro p
  rw [List.countP_append]
  have h0 : List.countP (fun r => decide (r.param_id = some p)) [r₀] = 0 := by
    simp [List.countP_cons, hr]
  rw [h0]
  simpa using hd p

lemma regsDedup_append_new {regs : List RegisterBlockConfig} {pid : Int}
    (hnot : regs.any (fun r => decide (r.param_id = some pid)) = false)
    (hd : regsDedup regs) :
    regsDedup (regs ++ [{ param_id := some pid }]) := by
  intro p
  rw [List.countP_append]
  by_cases hpp : p = pid
  · subst hpp
    have hz : regs.countP (fun r => decide (r.param_id = some p)) = 0 := by
      rw [List.countP_eq_zero]
      intro r hr hcontra
      have hany : regs.any (fun r => decide (r.param_id = some p)) = true :=
        List.any_eq_true.2 ⟨r, hr, hcontra⟩
      rw [hnot] at hany
      cases hany
    simp [hz, List.countP_cons]
  · have h1 : List.countP (fun r => decide (r.param_id = some p))
        ([{ param_id := some pid }] : List RegisterBlockConfig) = 0 := by
      simp only [List.countP_cons, List.countP_nil]
      simp [Ne.symm hpp]
    rw [h1]
    simpa using hd p

lemma applyRegParamId_dedup {ls : RegLineState} {pid : Int}
    (hd : regsDedup ls.st.registers) :
    regsDedup (applyRegParamId ls pid).st.registers := by
  unfold applyRegParamId
  split
  · exact hd
  · rename_i he
    have hb : ls.st.registers.any (fun r => decide (r.param_id = some pid)) = false := by
      cases hany : ls.st.registers.any (fun r => decide (r.param_id = some pid)) with
      | false => rfl
      | true => exact absurd (by rw [hany]; exact Bool.or_true _) he
    exact regsDedup_append_new hb hd

lemma applyRegAddress_dedup {ls : RegLineState} {addr : Int}
    (hd : regsDedup ls.st.registers) :
    regsDedup (applyRegAddress ls addr).st.registers := by
  unfold applyRegAddress
  split
  · split
    · exact regsDedup_map (fun r => by split <;> rfl) hd
    · exact regsDedup_append_none rfl
        (regsDedup_map (fun r => by split <;> rfl) hd)
  · exact hd

lemma assignRegType_dedup {ls : RegLineState} {t : PyStr}
    (hd : regsDedup ls.st.registers) :
    regsDedup (assignRegType ls t).st.registers := by
  unfold assignRegType
  exact regsDedup_map (fun r => by split <;> rfl) hd

lemma applyRegType_dedup {ls : RegLineState} {t : PyStr}
    (hd : regsDedup ls.st.registers) :
    regsDedup (applyRegType ls t).st.registers := by
  unfold applyRegType
  repeat' split
  any_goals exact assignRegType_dedup hd
  exact hd

lemma processRegTag_dedup {ls ls' : RegLineState} {tag : PyStr}
    (h : processRegTag ls tag = .ok ls') (hd : regsDedup ls.st.registers) :
    regsDedup ls'.st.registers := by
  unfold processRegTag at h
  split at h
  · obtain ⟨pid, _, rfl⟩ := except_map_ok h
    exact applyRegParamId_dedup hd
  · split at h
    · obtain ⟨a, _, rfl⟩ := except_map_ok h
      exact applyRegAddress_dedup hd
    · split at h
      · cases h
        exact applyRegType_dedup hd
      · cases h
        exact hd

lemma processTags_inv {σ : Type} {f : σ → PyStr → Except PyError σ} {P : σ → Prop}
    (hf : ∀ s t s', P s → f s t = .ok s' → P s') :
    ∀ (l : List PyStr) (s s' : σ), P s → processTags f l s = .ok s' → P s' := by
  intro l
  induction l with
  | nil =>
    intro s s' hp h
    cases h
    exact hp
  | cons t rest ih =>
    intro s s' hp h
    unfold processTags at h
    cases hf1 : f s t with
    | error e => rw [hf1, except_bind_err] at h; cases h
    | ok s₁ =>
      rw [hf1, except_bind_ok] at h
      exact ih s₁ s' (hf s t s₁ hp hf1) h

lemma processLine_dedup {st st' : SlaveState} {line : PyStr}
    (h : processLine st line = .ok st') (hd : regsDedup st.registers) :
    regsDedup st'.registers := by
  unfold processLine at h
  repeat' split at h
  · have hre := processTags_inv
      (P := fun s : SlaveState => s.registers = st.registers)
      (fun s t s' hp hh => (processDeviceTag_registers hh).trans hp) _ _ _ rfl h
    rw [hre]
    exact hd
  · have hre := processTags_inv
      (P := fun s : SlaveState => s.registers = st.registers)
      (fun s t s' hp hh => (processNetTag_registers hh).trans hp) _ _ _ rfl h
    rw [hre]
    exact hd
  · obtain ⟨ls, hpt, rfl⟩ := except_map_ok h
    exact processTags_inv (P := fun ls : RegLineState => regsDedup ls.st.registers)
      (fun s t s' hp hh => processRegTag_dedup hh hp) _ _ _ hd hpt
  · cases h
    exact hd

/-- C8 (confirmed).  Register-definition lines sharing one `paramId` merge into
a single descriptor: any successful parse leaves at most one descriptor per
integer paramId (later field assignments update the existing entry), and the
spec's concrete example — `paramId=12;address=42;registerType=holding` followed
by `paramId=12;registerType=coil` — yields exactly one descriptor with
param_id 12, address 42 and the last-assigned register type (coil). -/
theorem parse_merges_descriptors_by_param_id (sid : Int) (cfg : PyStr)
    (st : SlaveState) (store : Store)
    (hok : parse_config (initSlaveState sid) cfg = .ok (st, store)) :
    regsDedup st.registers ∧
    (parse_config (initSlaveState 1) mergeTemplate).map (fun r => r.1.registers) =
      .ok [{ param_id := some 12, address := some 42, register_type := some TYPE_COIL }] := by
  constructor
  · unfold parse_config at hok
    cases hpt : processTags processLine (pySplitLines cfg) (initSlaveState sid) with
    | error e => rw [hpt, except_bind_err] at hok; cases hok
    | ok st₁ =>
      rw [hpt, except_bind_ok] at hok
      cases hbs : buildStore st₁ with
      | error e => rw [hbs, except_bind_err] at hok; cases hok
      | ok store₁ =>
        rw [hbs, except_bind_ok] at hok
        cases hok
        exact processTags_inv (P := fun s : SlaveState => regsDedup s.registers)
          (fun s t s' hp hh => processLine_dedup hh hp) _ _ _
          (fun p => by simp [initSlaveState]) hpt
  · decide

/-- Witness for C8: the hypotheses hold at the concrete merge template. -/
theorem parse_merges_descriptors_by_param_id_witness :
    (parse_config (initSlaveState 1) mergeTemplate).map (fun r => r.1.registers) =
      .ok [{ param_id := some 12, address := some 42, register_type := some TYPE_COIL }] :=
  (parse_merges_descriptors_by_param_id 1 mergeTemplate mergeState mergeStore (by decide)).2

/-- C7 (amended).  An unsupported `registerType` token is logged as an error and
the type assignment is skipped (the descriptor's type stays unset), and a
register type with no descriptors yields no block; but the partition's
catch-all `else` branch routes a descriptor with no validly assigned type into
the coil block, so such a descriptor does contribute to the coil store entry. -/
theorem unsupported_type_logged_but_routed_to_coil :
    parse_config (initSlaveState 1) bogusTypeTemplate =
      .ok ({ identity := {}, sparse := false, slave_id := 1, zero_mode := true,
             registers := [{ param_id := some 1, address := some 3, register_type := none }],
             log := [.errUnsupportedRegisterType "bogus".toList] },
           { c := some (.seq { register_type := TYPE_COIL, address := 3,
                               values := [], timestamps := [] }) }) := by decide

lemma assocGet?_eq_none_of_not_mem {κ α : Type} [DecidableEq κ] {m : List (κ × α)} {k : κ}
    (h : k ∉ m.map Prod.fst) : assocGet? m k = none := by
  induction m with
  | nil => rfl
  | cons p rest ih =>
    rw [List.map_cons] at h
    simp only [List.mem_cons, not_or] at h
    show (List.find? (fun q => decide (q.1 = k)) (p :: rest)).map Prod.snd = none
    rw [List.find?_cons_of_neg _ (by simpa using fun hc => h.1 hc.symm)]
    exact ih h.2

lemma assocGet?_append_left {κ α : Type} [DecidableEq κ] {m l : List (κ × α)} {k : κ}
    (h : k ∈ m.map Prod.fst) : assocGet? (m ++ l) k = assocGet? m k := by
  induction m with
  | nil => cases h
  | cons p rest ih =>
    by_cases hp : p.1 = k
    · show (List.find? (fun q => decide (q.1 = k)) (p :: (rest ++ l))).map Prod.snd =
        (List.find? (fun q => decide (q.1 = k)) (p :: rest)).map Prod.snd
      rw [List.find?_cons_of_pos _ (by simpa using hp),
          List.find?_cons_of_pos _ (by simpa using hp)]
    · rw [List.map_cons] at h
      have h' : k ∈ rest.map Prod.fst := by
        rcases List.mem_cons.1 h with hc | hc
        · exact absurd hc.symm hp
        · exact hc
      show (List.find? (fun q => decide (q.1 = k)) (p :: (rest ++ l))).map Prod.snd =
        (List.find? (fun q => decide (q.1 = k)) (p :: rest)).map Prod.snd
      rw [List.find?_cons_of_neg _ (by simpa using hp),
          List.find?_cons_of_neg _ (by simpa using hp)]
      exact ih h'

lemma assocGet?_append_new {κ α : Type} [DecidableEq κ] {m : List (κ × α)} {k : κ} {v : α}
    (h : k ∉ m.map Prod.fst) : assocGet? (m ++ [(k, v)]) k = some v := by
  induction m with
  | nil => simp [assocGet?]
  | cons p rest ih =>
    rw [List.map_cons] at h
    simp only [List.mem_cons, not_or] at h
    show (List.find? (fun q => decide (q.1 = k)) (p :: (rest ++ [(k, v)]))).map Prod.snd = some v
    rw [List.find?_cons_of_neg _ (by simpa using fun hc => h.1 hc.symm)]
    exact ih h.2

lemma initSlavesAux_spec :
    ∀ (rows : List ConfigRow) (slaves : List Int) (m : List (Int × SlaveCtx))
      (log : List LogMsg) (out : List Int × List (Int × SlaveCtx) × List LogMsg),
      slaves = m.map Prod.fst → slaves.Nodup →
      initSlavesAux slaves m log rows = .ok out →
      (out.2.1.map Prod.fst).Nodup ∧
      (∀ id : Int,
        assocGet? out.2.1 id =
          if id ∈ slaves then assocGet? m id
          else
            match rows.find? (fun r => decide (r.slave_id = id)) with
            | some row => (slaveContextInit row).toOption
            | none => none) ∧
      (∀ id : Int,
        out.2.2.countP (fun msg => decide (msg = .warnDuplicateSlaveId id)) =
          log.countP (fun msg => decide (msg = .warnDuplicateSlaveId id)) +
            (rows.countP (fun r => decide (r.slave_id = id)) -
              if id ∈ slaves then 0 else 1)) := by
  intro rows
  induction rows with
  | nil =>
    intro slaves m log out hsm hnd h
    cases h
    refine ⟨hsm ▸ hnd, ?_, ?_⟩
    · intro id
      by_cases hid : id ∈ slaves
      · simp only [hid, if_true]
      · simp only [hid, if_false, List.find?_nil]
        exact assocGet?_eq_none_of_not_mem (by rw [← hsm]; exact hid)
    · intro id
      simp
  | cons row rest ih =>
    intro slaves m log out hsm hnd h
    unfold initSlavesAux at h
    split at h
    · -- duplicate unit id: warn and drop
      rename_i hin
      obtain ⟨hnd', hget, hcnt⟩ :=
        ih slaves m (log ++ [.warnDuplicateSlaveId row.slave_id]) out hsm hnd h
      refine ⟨hnd', ?_, ?_⟩
      · intro id
        rw [hget id]
        by_cases hid : id ∈ slaves
        · simp only [hid, if_true]
        · have hne : ¬ (row.slave_id = id) := fun hc => hid (hc ▸ hin)
          simp only [hid, if_false]
          rw [List.find?_cons_of_neg _ (by simpa using hne)]
      · intro id
        rw [hcnt id]
        by_cases hid : id = row.slave_id
        · subst hid
          simp only [List.countP_append, List.countP_cons, List.countP_nil, hin, if_true]
          simp
          try omega
        · have e1 : decide (LogMsg.warnDuplicateSlaveId row.slave_id =
              LogMsg.warnDuplicateSlaveId id) = false := by
            simp
            exact fun hc => hid hc.symm
          have e2 : decide (row.slave_id = id) = false := by
            simp
            exact fun hc => hid hc.symm
          simp only [List.countP_append, List.countP_cons, List.countP_nil, e1, e2]
          simp
          try omega
    · -- new unit id: construct the slave context
      rename_i hnin
      cases hctx : slaveContextInit row with
      | error e => rw [hctx] at h; cases h
      | ok ctx =>
        rw [hctx] at h
        have hsm' : slaves ++ [row.slave_id] = (m ++ [(row.slave_id, ctx)]).map Prod.fst := by
          rw [List.map_append, ← hsm]
          rfl
        have hnd' : (slaves ++ [row.slave_id]).Nodup := by
          simp [List.nodup_append, hnd, hnin]
        obtain ⟨hnodup, hget, hcnt⟩ :=
          ih (slaves ++ [row.slave_id]) (m ++ [(row.slave_id, ctx)]) log out hsm' hnd' h
        refine ⟨hnodup, ?_, ?_⟩
        · intro id
          rw [hget id]
          by_cases hid : id ∈ slaves
          · have hid' : id ∈ slaves ++ [row.slave_id] := List.mem_append_left _ hid
            simp only [hid', hid, if_true]
            exact assocGet?_append_left (by rw [← hsm]; exact hid)
          · by_cases hidr : id = row.slave_id
            · have hid' : id ∈ slaves ++ [row.slave_id] :=
                List.mem_append_right _ (by simp [hidr])
              simp only [hid', hid, if_true, if_false]
              rw [hidr]
              rw [List.find?_cons_of_pos _ (by simp)]
              rw [assocGet?_append_new (by rw [← hsm]; exact hnin)]
              show some ctx = (slaveContextInit row).toOption
              rw [hctx]
              rfl
            · have hid' : id ∉ slaves ++ [row.slave_id] := by
                simp only [List.mem_append, List.mem_singleton, not_or]
                exact ⟨hid, fun hc => hidr hc⟩
              simp only [hid', hid, if_false]
              rw [List.find?_cons_of_neg _ (by simpa using fun hc => hidr hc.symm)]
        · intro id
          rw [hcnt id]
          by_cases hidr : id = row.slave_id
          · subst hidr
            have hmem : row.slave_id ∈ slaves ++ [row.slave_id] :=
              List.mem_append_right _ (by simp)
            simp only [List.countP_cons, hmem, hnin, if_true, if_false]
            simp
            try omega
          · have e2 : decide (row.slave_id = id) = false := by
              simp
              exact fun hc => hidr hc.symm
            have hmem : (id ∈ slaves ++ [row.slave_id]) ↔ (id ∈ slaves) := by
              simp [hidr]
            simp only [List.countP_cons, e2, hmem]
            simp
            try omega

/-- C9 (confirmed).  The Server Context builds one Slave Context per distinct
unit id in row order: the resulting mapping has pairwise-distinct unit ids,
each id maps to the context built from the first row carrying that id, and
every later row with an already-seen id contributes exactly one duplicate
warning (count of warnings for an id = its row count minus one). -/
theorem server_context_first_seen_wins (rows : List ConfigRow) (m : List (Int × SlaveCtx)) (log : List LogMsg)
    (hok : initialize_slaves rows = .ok (m, log)) :
    (m.map Prod.fst).Nodup ∧
    (∀ id : Int,
      assocGet? m id =
        match rows.find? (fun r => decide (r.slave_id = id)) with
        | some row => (slaveContextInit row).toOption
        | none => none) ∧
    (∀ id : Int,
      log.countP (fun msg => decide (msg = .warnDuplicateSlaveId id)) =
        rows.countP (fun r => decide (r.slave_id = id)) - 1) := by
  unfold initialize_slaves at hok
  cases haux : initSlavesAux [] [] [] rows with
  | error e => rw [haux] at hok; cases hok
  | ok out =>
    rw [haux] at hok
    cases hok
    obtain ⟨hnodup, hget, hcnt⟩ :=
      initSlavesAux_spec rows [] [] [] out rfl List.nodup_nil haux
    refine ⟨hnodup, ?_, ?_⟩
    · intro id
      have hg := hget id
      simpa using hg
    · intro id
      have hc := hcnt id
      simpa using hc

/-- Witness for C9: two rows sharing unit id 3 initialize successfully and the
second is warned about. -/
theorem server_context_first_seen_wins_witness :
    ([LogMsg.warnDuplicateSlaveId 3] : List LogMsg).countP
        (fun msg => decide (msg = .warnDuplicateSlaveId (3 : Int))) =
      dupRows.countP (fun r => decide (r.slave_id = (3 : Int))) - 1 :=
  (server_context_first_seen_wins dupRows [(3, dupRowsCtx)] [.warnDuplicateSlaveId 3]
    (by decide)).2.2 3

lemma filterMap_id_map_some (l : List Int) : (l.map some).filterMap id = l := by
  induction l with
  | nil => rfl
  | cons x t ih => simp [ih]

lemma any_isNone_map_some (l : List Int) : (l.map some).any (fun a => a.isNone) = false := by
  induction l with
  | nil => rfl
  | cons x t ih => simpa using ih

lemma pyGetIdx_zero (x : α) (t : List α) : pyGetIdx (x :: t) 0 = .ok x := rfl

lemma get_q_length_sub_one : ∀ (l : List α) (h : l ≠ []), l.get? (l.length - 1) = some (l.getLast h)
  | [x], _ => rfl
  | x :: y :: t, _ => by
    have ih := get_q_length_sub_one (y :: t) (by simp)
    rw [List.getLast_cons (by simp : (y : α) :: t ≠ [])]
    simpa [List.length_cons] using ih

lemma pyGetIdx_last (l : List α) (h : l ≠ []) :
    pyGetIdx l ((l.length : Int) - 1) = .ok (l.getLast h) := by
  have hlen : 0 < l.length := List.length_pos.mpr h
  have h1 : ¬ ((l.length : Int) - 1 < 0) := by omega
  have h2 : (0 : Int) ≤ (l.length : Int) - 1 := by omega
  have h3 : ((l.length : Int) - 1).toNat = l.length - 1 := by omega
  simp only [pyGetIdx, if_neg h1, if_pos h2, h3, get_q_length_sub_one l h]

lemma sorted_le_getLast : ∀ (l : List Int) (h : l ≠ []),
    l.Sorted (fun a b => a ≤ b) → ∀ a ∈ l, a ≤ l.getLast h
  | [x], _, _, a, ha => by
    simp only [List.mem_singleton] at ha
    simp [ha, List.getLast]
  | x :: y :: t, _, hs, a, ha => by
    have h' : (y : Int) :: t ≠ [] := by simp
    rw [List.getLast_cons h']
    rcases List.mem_cons.1 ha with rfl | ha'
    · exact List.rel_of_sorted_cons hs _ (List.getLast_mem h')
    · exact sorted_le_getLast (y :: t) h' hs.of_cons a ha'

/-- C5 (confirmed).  For every non-empty list of valid descriptor addresses and
valid register type, the constructed Sequential block has base equal to the
minimum address and a zero-initialized values array spanning exactly
`[min, max)` — the upper bound excludes the maximum address itself — while an
empty address list yields no block. -/
theorem sequential_block_spans_min_max (addrs : List Int) (rt : PyStr) (lo hi : Int)
    (hrt : rt ∈ REGISTER_TYPES) (hlo : lo ∈ addrs) (hlob : ∀ a ∈ addrs, lo ≤ a)
    (hhi : hi ∈ addrs) (hhib : ∀ a ∈ addrs, a ≤ hi) :
    setup_sequential_block (addrs.map some) rt =
      .ok (some { register_type := rt, address := lo,
                  values := List.replicate (hi - lo).toNat 0,
                  timestamps := List.replicate ((hi - lo).toNat - 1) none }) ∧
    setup_sequential_block [] rt = .ok none := by
  refine ⟨?_, by simp [setup_sequential_block]⟩
  have hne : addrs ≠ [] := List.ne_nil_of_mem hlo
  have hlen : 0 < (addrs.map some).length := by
    simpa using List.length_pos.mpr hne
  unfold setup_sequential_block
  rw [if_pos ⟨hrt, hlen⟩, any_isNone_map_some]
  simp only [Bool.false_eq_true, if_false, filterMap_id_map_some]
  have hs := List.sorted_insertionSort (fun a b : Int => a ≤ b) addrs
  have hperm := List.perm_insertionSort (fun a b : Int => a ≤ b) addrs
  set s := addrs.insertionSort (fun a b => a ≤ b) with hsdef
  have hsne : s ≠ [] := by
    intro hnil
    rw [hnil] at hperm
    exact hne (hperm.symm.eq_nil ▸ rfl)
  cases hseq : s with
  | nil => exact absurd hseq hsne
  | cons x t =>
    rw [hseq] at hs hperm
    rw [pyGetIdx_zero, except_bind_ok,
        pyGetIdx_last (x :: t) (List.cons_ne_nil x t), except_bind_ok]
    have hxlo : x = lo := by
      have hx_mem : x ∈ addrs := hperm.mem_iff.1 (List.mem_cons_self x t)
      have hlo_s : lo ∈ x :: t := hperm.mem_iff.2 hlo
      have hxle : x ≤ lo := by
        rcases List.mem_cons.1 hlo_s with rfl | hlt
        · exact le_refl _
        · exact List.rel_of_sorted_cons hs _ hlt
      exact le_antisymm hxle (hlob x hx_mem)
    have hglhi : (x :: t).getLast (List.cons_ne_nil x t) = hi := by
      have hgl_mem : (x :: t).getLast (List.cons_ne_nil x t) ∈ x :: t :=
        List.getLast_mem _
      have hgl_addrs : (x :: t).getLast (List.cons_ne_nil x t) ∈ addrs :=
        hperm.mem_iff.1 hgl_mem
      have hhi_s : hi ∈ x :: t := hperm.mem_iff.2 hhi
      exact le_antisymm (hhib _ hgl_addrs)
        (sorted_le_getLast (x :: t) (List.cons_ne_nil x t) hs hi hhi_s)
    rw [hglhi, hxlo]
    simp [SeqBlock.init, if_pos hrt, except_bind_ok, REGISTER_TYPES] at hrt ⊢
    simp [SeqBlock.init, hrt]

/-- Witness for C5: descriptor addresses 5, 7, 9 yield base 5 and the
zero-initialized range [5, 9). -/
theorem sequential_block_spans_min_max_witness :
    setup_sequential_block ([5, 7, 9].map some) TYPE_HOLDING_REGISTER =
      .ok (some { register_type := TYPE_HOLDING_REGISTER, address := 5,
                  values := List.replicate ((9 : Int) - 5).toNat 0,
                  timestamps := List.replicate (((9 : Int) - 5).toNat - 1) none }) ∧
    setup_sequential_block [] TYPE_HOLDING_REGISTER = .ok none :=
  sequential_block_spans_min_max [5, 7, 9] TYPE_HOLDING_REGISTER 5 9 (by decide) (by decide)
    (by decide) (by decide) (by decide)

lemma dictGet_err {κ α : Type} [DecidableEq κ] {d : List (κ × α)} {k : κ} {e : PyError}
    (h : dictGet d k = .error e) : e = .keyError := by
  unfold dictGet at h
  cases hf : d.find? (fun p => decide (p.1 = k)) with
  | some p => rw [hf] at h; cases h
  | none => rw [hf] at h; cases h; rfl

lemma dictGet_ok_mem {κ α : Type} [DecidableEq κ] {d : List (κ × α)} {k : κ} {v : α}
    (h : dictGet d k = .ok v) : k ∈ dictKeys d := by
  induction d with
  | nil => unfold dictGet at h; cases h
  | cons q rest ih =>
    by_cases hq : q.1 = k
    · exact hq ▸ List.mem_map_of_mem Prod.fst (List.mem_cons_self q rest)
    · unfold dictGet at h
      rw [List.find?_cons_of_neg _ (by simpa using hq)] at h
      have hmem := ih (by unfold dictGet; exact h)
      rw [dictKeys, List.map_cons]
      exact List.mem_cons_of_mem _ hmem

lemma dictGet_mem_ok {κ α : Type} [DecidableEq κ] {d : List (κ × α)} {k : κ}
    (h : k ∈ dictKeys d) : ∃ v, dictGet d k = .ok v := by
  induction d with
  | nil => cases h
  | cons p rest ih =>
    by_cases hp : p.1 = k
    · refine ⟨p.2, ?_⟩
      unfold dictGet
      rw [List.find?_cons_of_pos _ (by simpa using hp)]
    · rw [dictKeys, List.map_cons] at h
      have h' : k ∈ dictKeys rest := by
        rcases List.mem_cons.1 h with hc | hc
        · exact absurd hc.symm hp
        · exact hc
      obtain ⟨v, hv⟩ := ih h'
      refine ⟨v, ?_⟩
      unfold dictGet
      rw [List.find?_cons_of_neg _ (by simpa using hp)]
      unfold dictGet at hv
      exact hv

lemma any_key_eq {κ α : Type} [DecidableEq κ] (d : List (κ × α)) (k : κ) :
    d.any (fun p => decide (p.1 = k)) = (dictKeys d).any (fun x => decide (x = k)) := by
  induction d with
  | nil => rfl
  | cons q rest ih =>
    show (decide (q.1 = k) || rest.any fun p => decide (p.1 = k)) =
      (decide (q.1 = k) || (dictKeys rest).any fun x => decide (x = k))
    rw [ih]

lemma dictKeys_dictSet {κ α : Type} [DecidableEq κ] (d : List (κ × α)) (k : κ) (v : α) :
    dictKeys (dictSet d k v) =
      if d.any (fun p => decide (p.1 = k)) then dictKeys d else dictKeys d ++ [k] := by
  unfold dictSet
  split
  · unfold dictKeys
    rw [List.map_map]
    apply List.map_congr_left
    intro q _
    dsimp [Function.comp]
    split
    · rename_i hpk
      exact hpk.symm
    · rfl
  · unfold dictKeys
    rw [List.map_append]
    rfl

lemma dictKeys_dictSet_mem {κ α : Type} [DecidableEq κ] {d : List (κ × α)} {k : κ} (v : α)
    (h : k ∈ dictKeys d) : dictKeys (dictSet d k v) = dictKeys d := by
  rw [dictKeys_dictSet]
  have : d.any (fun p => decide (p.1 = k)) = true := by
    obtain ⟨p, hp, hfst⟩ := List.mem_map.1 h
    exact List.any_eq_true.2 ⟨p, hp, by simpa using hfst⟩
  rw [this]
  simp

lemma keyRows_ok :
    ∀ (items : List Row), (∀ r ∈ items, r.regAddress.isSome) →
      ∃ keyed, keyRows items = .ok keyed ∧ keyed.map Prod.snd = items := by
  intro items
  induction items with
  | nil => exact fun _ => ⟨[], rfl, rfl⟩
  | cons r rest ih =>
    intro hw
    obtain ⟨a, ha⟩ := Option.isSome_iff_exists.1 (hw r (List.mem_cons_self r rest))
    obtain ⟨keyed, hk, hmap⟩ := ih (fun x hx => hw x (List.mem_cons_of_mem r hx))
    refine ⟨(a, r) :: keyed, ?_, by simp [hmap]⟩
    unfold keyRows
    rw [ha]
    simp [getKey, except_bind_ok, hk]

lemma sortRows_ok {items : List Row} (hw : ∀ r ∈ items, r.regAddress.isSome) :
    ∃ rows, sortRowsByAddress items = .ok rows ∧ ∀ r ∈ rows, r ∈ items := by
  obtain ⟨keyed, hk, hmap⟩ := keyRows_ok items hw
  refine ⟨(keyed.insertionSort (fun p q => p.1 ≤ q.1)).map Prod.snd, ?_, ?_⟩
  · unfold sortRowsByAddress
    rw [hk, except_bind_ok]
    rfl
  · intro r hr
    rw [← hmap]
    obtain ⟨p, hp, rfl⟩ := List.mem_map.1 hr
    exact List.mem_map_of_mem Prod.snd ((List.perm_insertionSort _ _).mem_iff.1 hp)

lemma buildSparseDicts_ok :
    ∀ (rows : List Row) (acc : List (Int × Int) × List (Int × Int)),
      (∀ r ∈ rows, r.wellFormed) → dictKeys acc.1 = dictKeys acc.2 →
      ∃ out, buildSparseDicts rows acc = .ok out ∧ dictKeys out.1 = dictKeys out.2 := by
  intro rows
  induction rows with
  | nil => exact fun acc _ hk => ⟨acc, rfl, hk⟩
  | cons r rest ih =>
    intro acc hw hk
    obtain ⟨v0, t0⟩ := acc
    obtain ⟨hwa, hwd, hwt⟩ := hw r (List.mem_cons_self r rest)
    obtain ⟨a, ha⟩ := Option.isSome_iff_exists.1 hwa
    obtain ⟨dta, hd⟩ := Option.isSome_iff_exists.1 hwd
    obtain ⟨ts, ht⟩ := Option.isSome_iff_exists.1 hwt
    have hk' : dictKeys (dictSet v0 a dta) = dictKeys (dictSet t0 a ts) := by
      rw [dictKeys_dictSet, dictKeys_dictSet, any_key_eq, any_key_eq]
      rw [hk]
    obtain ⟨out, hout, hkeys⟩ :=
      ih (dictSet v0 a dta, dictSet t0 a ts) (fun x hx => hw x (List.mem_cons_of_mem r hx)) hk'
    refine ⟨out, ?_, hkeys⟩
    unfold buildSparseDicts
    rw [hd, ha, ht]
    simp [getKey, except_bind_ok, hout]

lemma read_collection_sparse_ok {items : List Row} (hw : ∀ r ∈ items, r.wellFormed)
    (address count : Int) :
    ∃ v t log, read_collection_sparse items address count = .ok (v, t, log) ∧
      dictKeys v = dictKeys t := by
  obtain ⟨rows, hsort, hmem⟩ := sortRows_ok (fun r hr => (hw r hr).1)
  obtain ⟨⟨v, t⟩, hbuild, hkeys⟩ :=
    buildSparseDicts_ok rows ([], []) (fun r hr => hw r (hmem r hr)) rfl
  refine ⟨v, t,
    (if (rows.length : Int) ≠ count then [LogMsg.warnRowCountMismatch rows.length count]
     else []), ?_, hkeys⟩
  unfold read_collection_sparse
  rw [hsort, except_bind_ok, hbuild, except_bind_ok]
  rfl

lemma sparseMergeInner_ok {remoteV remoteT : List (Int × Int)} {key : Int}
    (hv : key ∈ dictKeys remoteV) (ht : key ∈ dictKeys remoteT) :
    ∀ (addrs : List (Option Int)) (bk : SparseBlock),
      (∀ a ∈ addrs, a ∈ dictKeys bk.values) →
      ∃ bk', sparseMergeInner remoteV remoteT key addrs bk = .ok bk' ∧
        dictKeys bk'.values = dictKeys bk.values := by
  intro addrs
  induction addrs with
  | nil => exact fun bk _ => ⟨bk, rfl, rfl⟩
  | cons addr rest ih =>
    intro bk hsub
    by_cases hkey : some key = addr
    · obtain ⟨v, hvv⟩ := dictGet_mem_ok hv
      obtain ⟨t, htt⟩ := dictGet_mem_ok ht
      have haddr : addr ∈ dictKeys bk.values := hsub addr (List.mem_cons_self addr rest)
      have hpres : dictKeys (dictSet bk.values addr v) = dictKeys bk.values :=
        dictKeys_dictSet_mem v haddr
      obtain ⟨bk', hrec, hkeys⟩ := ih
        { bk with values := dictSet bk.values addr v,
                  timestamps := dictSet bk.timestamps addr (some t) }
        (by
          intro a ha
          show a ∈ dictKeys (dictSet bk.values addr v)
          rw [hpres]
          exact hsub a (List.mem_cons_of_mem addr ha))
      refine ⟨bk', ?_, ?_⟩
      · unfold sparseMergeInner
        rw [if_pos hkey, hvv, except_bind_ok, htt, except_bind_ok]
        exact hrec
      · rw [hkeys]
        exact hpres
    · obtain ⟨bk', hrec, hkeys⟩ := ih bk
        (fun a ha => hsub a (List.mem_cons_of_mem addr ha))
      refine ⟨bk', ?_, hkeys⟩
      unfold sparseMergeInner
      rw [if_neg hkey]
      exact hrec

lemma sparseMergeOuter_ok {remoteV remoteT : List (Int × Int)}
    (hkt : dictKeys remoteV = dictKeys remoteT) :
    ∀ (keys : List Int) (bk : SparseBlock),
      (∀ k ∈ keys, k ∈ dictKeys remoteV) →
      ∃ bk', sparseMergeOuter remoteV remoteT keys bk = .ok bk' ∧
        dictKeys bk'.values = dictKeys bk.values := by
  intro keys
  induction keys with
  | nil => exact fun bk _ => ⟨bk, rfl, rfl⟩
  | cons key rest ih =>
    intro bk hks
    have hv : key ∈ dictKeys remoteV := hks key (List.mem_cons_self key rest)
    have ht : key ∈ dictKeys remoteT := hkt ▸ hv
    obtain ⟨bk₁, hinner, hkeys₁⟩ := sparseMergeInner_ok hv ht (bk.values.map Prod.fst) bk
      (fun a ha => ha)
    obtain ⟨bk', houter, hkeys'⟩ := ih bk₁ (fun k hk => hks k (List.mem_cons_of_mem key hk))
    refine ⟨bk', ?_, by rw [hkeys', hkeys₁]⟩
    unfold sparseMergeOuter
    rw [hinner, except_bind_ok]
    exact houter

lemma mem_intRange {a b i : Int} (h : a ≤ i ∧ i < b) : i ∈ intRange a b := by
  have h1 : (i - a).toNat < (b - a).toNat := by omega
  have h2 : a + (((i - a).toNat : Nat) : Int) = i := by omega
  have h3 : ((i - a).toNat : Nat) ∈ List.range ((b - a).toNat) := List.mem_range.2 h1
  have h4 := List.mem_map_of_mem (fun n : Nat => a + (n : Int)) h3
  simp only [] at h4
  rw [h2] at h4
  unfold intRange
  exact h4

lemma sparseComp_err {d : List (Option Int × Int)} :
    ∀ (l : List Int), (∃ i ∈ l, some i ∉ dictKeys d) →
      sparseComp d l = .error .keyError := by
  intro l
  induction l with
  | nil => rintro ⟨i, hi, _⟩; cases hi
  | cons j rest ih =>
    rintro ⟨i, hi, hmiss⟩
    unfold sparseComp
    cases hj : dictGet d (some j) with
    | error e =>
      rw [except_bind_err, dictGet_err hj]
    | ok v =>
      rw [except_bind_ok]
      have hrest : ∃ i ∈ rest, some i ∉ dictKeys d := by
        rcases List.mem_cons.1 hi with rfl | hr
        · exact absurd (dictGet_ok_mem hj) hmiss
        · exact ⟨i, hr, hmiss⟩
      rw [ih hrest, except_bind_err]

/-- C10 (confirmed).  A Sparse block's `getValues(address, count)` fails with a
key-lookup error (`KeyError`) whenever some address in `[address, address+count)`
is not among the block's defined addresses, for any well-formed remote response:
the bridge read omits missing addresses silently, the merge only updates
existing keys, and the final list comprehension looks every requested address up
directly in the cache dict. -/
theorem sparse_getValues_missing_address_keyerror (b : SparseBlock) (items : List Row) (address count i : Int)
    (hw : ∀ r ∈ items, r.wellFormed)
    (hlo : address ≤ i) (hhi : i < address + count)
    (hmiss : some i ∉ dictKeys b.values) :
    SparseBlock.getValues b items address count = .error .keyError := by
  obtain ⟨v, t, log, hread, hkeys⟩ := read_collection_sparse_ok hw address count
  obtain ⟨bk', hmerge, hbkeys⟩ := sparseMergeOuter_ok hkeys (v.map Prod.fst) b
    (fun k hk => hk)
  have hcomp : sparseComp bk'.values (intRange address (address + count)) = .error .keyError := by
    apply sparseComp_err
    exact ⟨i, mem_intRange ⟨hlo, hhi⟩, by rw [hbkeys]; exact hmiss⟩
  unfold SparseBlock.getValues
  rw [hread, except_bind_ok]
  dsimp only
  rw [hmerge, except_bind_ok, hcomp, except_bind_err]

/-- Witness for C10: a sparse block defining only address 5, read over [5, 7). -/
theorem sparse_getValues_missing_address_keyerror_witness :
    SparseBlock.getValues
      { register_type := TYPE_HOLDING_REGISTER, values := [(some 5, 0)],
        timestamps := [(some 5, none)] } [] 5 2 = .error .keyError :=
  sparse_getValues_missing_address_keyerror _ [] 5 2 6 (by decide) (by decide) (by decide)
    (by decide)

end ModbusProxy
